import Mathlib

/-!
Verification of the go-callvis analysis engine and entry point.

Shallow embedding of the Go sources:
  * the `analysis` package (renderOpts, ProcessListArgs, OverrideByHTTP,
    Render's focus resolution, FindCachedImg, CacheImg, copyFile,
    mainPackages and the DoAnalysis algorithm switch), and
  * `main.go` (flag registration order, the version check, NewAnalysis
    wiring, and the HTTP handler's error-to-status mapping).

Pure data (strings, lists, booleans) is embedded directly.  The file
system is an explicit state value; external components that are not part
of this repository (`output.PrintOutput`, `dot.DotToImage`) are
parameters of the functions that call them.  A Go slice-index panic is
modelled as `Option.none`.
-/

set_option autoImplicit false

namespace GoCallvis

/-- A loaded package: bare name, import path, and the names of its
declared functions (`p.Pkg.Name()`, `p.Pkg.Path()`, `p.Func`). -/
structure GoPackage where
  name : String
  path : String
  funcs : List String
  deriving DecidableEq, Repr

/-- `renderOpts` from the analysis package: cache directory, focus
target, the four list-valued options, the two omission flags, the
refresh flag and the algorithm name (a plain string in Go). -/
structure RenderOpts where
  cacheDir : String
  focus : String
  group : List String
  ignore : List String
  includeL : List String
  limit : List String
  nointer : Bool
  refresh : Bool
  nostd : Bool
  algo : String
  deriving DecidableEq, Repr

/-- The `Analysis` session state needed by the cache and render
operations: the mutable options and the output image format stored by
`NewAnalysis`. -/
structure Analysis where
  opts : RenderOpts
  outputFormat : String
  deriving DecidableEq, Repr

/-- A file on disk: whether `Mode().IsRegular()` holds, and its bytes. -/
structure FSFile where
  regular : Bool
  content : List Nat
  deriving DecidableEq, Repr

/-- The file system as seen by the cache code: files by path, plus the
set of directories created so far. -/
structure FS where
  files : String → Option FSFile
  dirs : List String

/-- `os.Stat` succeeds on a path that is a file or a directory. -/
def FS.existsPath (fs : FS) (p : String) : Bool :=
  (fs.files p).isSome || fs.dirs.contains p

/-- An HTTP request: URL path and `FormValue` lookup (absent parameters
give `""`, as in Go). -/
structure HRequest where
  path : String
  formValue : String → String

/-- `NewAnalysis` stores its single argument as the output image format
(logger.go:148-152). The options are populated later by `OptsSetup`. -/
def newAnalysis (outputFormat : String) (opts : RenderOpts) : Analysis :=
  { opts := opts, outputFormat := outputFormat }

/-- `OptsSetup` (logger.go:224-245): wraps each raw list string in a
one-element slice.  The `refresh` and `algo` parameters are accepted but
the struct literal omits those fields, so they take the zero values. -/
def optsSetup (cacheDir focus group ignore includeS limit : String)
    (nointer _refresh nostd : Bool) (_algo : String) : RenderOpts :=
  { cacheDir := cacheDir
    focus := focus
    group := [group]
    ignore := [ignore]
    includeL := [includeS]
    limit := [limit]
    nointer := nointer
    refresh := false
    nostd := nostd
    algo := "" }

/-- `strings.Split(s, ",")` on the character list: split at every
comma; the empty input gives one empty field, as in Go. -/
def splitCommaChars : List Char → List Char → List (List Char)
  | [], acc => [acc.reverse]
  | c :: rest, acc =>
    if c = ',' then acc.reverse :: splitCommaChars rest []
    else splitCommaChars rest (c :: acc)

/-- `strings.Split(s, ",")`. -/
def goSplitComma (s : String) : List String :=
  (splitCommaChars s.data []).map String.mk

/-- `strings.TrimSpace`: drop leading and trailing whitespace. -/
def goTrimSpace (s : String) : String :=
  String.mk (((s.data.dropWhile Char.isWhitespace).reverse.dropWhile
    Char.isWhitespace).reverse)

/-- `strings.Contains(s, "/")` for the single-character separator. -/
def goContains (s : String) (c : Char) : Bool :=
  s.data.contains c

/-- Whether `p` is an initial segment of `l`. -/
def listIsInit : List Char → List Char → Bool
  | [], _ => true
  | _ :: _, [] => false
  | a :: as, b :: bs => a = b && listIsInit as bs

/-- `strings.HasSuffix(s, suf)`. -/
def goHasSuffix (s suf : String) : Bool :=
  listIsInit suf.data.reverse s.data.reverse

/-- `filepath.Join(a, b)` for the already-clean paths this program
builds: `Join("", b) = b`, otherwise the two parts joined by a slash. -/
def goJoin (a b : String) : String :=
  if a = "" then b else a ++ "/" ++ b

/-- `strings.TrimRightFunc`: drop trailing characters satisfying the
predicate. -/
def trimRightFunc (s : String) (p : Char → Bool) : String :=
  String.mk ((s.data.reverse.dropWhile p).reverse)

/-- `prog.ImportedPackage(path)`: the program's package with the
given import path, if any. -/
def importedPackage (prog : List GoPackage) (path : String) : Option GoPackage :=
  prog.find? (fun p => p.path = path)

/-- `mainPackages` (logger.go:123-134): keep the non-nil packages named
`main` that declare a function `main`; error when none remain. -/
def mainPackages (pkgs : List (Option GoPackage)) : Except String (List GoPackage) :=
  let mains := pkgs.filterMap (fun p =>
    match p with
    | some p => if p.name = "main" ∧ p.funcs.contains "main" then some p else none
    | none => none)
  if mains = [] then .error "no main packages" else .ok mains

/-- Result of the call-graph algorithm switch: the session's main
package (only set by rta) and the rta root packages (each contributing
its `main` function as a root). -/
structure AlgoResult where
  mainPkg : Option GoPackage
  roots : List GoPackage
  deriving DecidableEq, Repr

/-- The algorithm switch inside `DoAnalysis` (logger.go:195-213), after
a successful load: `static` and `cha` need no roots; `rta` requires the
main packages, makes the first the session's main package and takes
every main package's `main` function as a root; anything else is an
invalid call graph type. -/
def doAnalysisSwitch (algo : String) (allPkgs : List (Option GoPackage)) :
    Except String AlgoResult :=
  if algo = "static" then .ok ⟨none, []⟩
  else if algo = "cha" then .ok ⟨none, []⟩
  else if algo = "rta" then
    match mainPackages allPkgs with
    | .error e => .error e
    | .ok mains => .ok ⟨mains.head?, mains⟩
  else .error ("invalid call graph type: " ++ algo)

/-- The trimmed, non-blank tokens of a comma-separated Go string, in
order (`strings.Split` + `strings.TrimSpace`, blanks skipped). -/
def validTokens (l : List String) : List String :=
  (l.map goTrimSpace).filter (fun t => t ≠ "")

/-- The group loop of `ProcessListArgs` (logger.go:253-264): iterate the
comma-split tokens, skip blanks, reject anything other than `pkg` or
`type`.  The Go code assigns `a.opts.group = groupBy` inside the loop,
after each append, so the group field ends as the accumulated valid
tokens — the original value survives only when no valid token was seen
before stopping.  Returns the final group value and the error, if any. -/
def groupStep (orig : List String) : List String → List String →
    List String × Option String
  | [], acc => (if acc = [] then orig else acc, none)
  | g :: rest, acc =>
    let g := goTrimSpace g
    if g = "" then groupStep orig rest acc
    else if g ≠ "pkg" ∧ g ≠ "type" then
      (if acc = [] then orig else acc, some "invalid group option")
    else groupStep orig rest (acc ++ [g])

/-- One of the three guarded list rewrites of `ProcessListArgs`
(logger.go:266-294): when the list is non-empty, split its head on
commas, trim, and keep the non-blank tokens. -/
def procList (l : List String) : List String :=
  match l with
  | [] => []
  | x :: _ => validTokens (goSplitComma x)

/-- `ProcessListArgs` (logger.go:247-297).  `none` models the panic of
indexing `a.opts.group[0]` on an empty slice; otherwise the result is
the updated options paired with the error, if any (on a group error the
ignore/include/limit lists are not processed). -/
def processListArgs (o : RenderOpts) : Option (RenderOpts × Option String) :=
  match o.group with
  | [] => none
  | g0 :: _ =>
    let step := groupStep o.group (goSplitComma g0) []
    let o1 := { o with group := step.1 }
    match step.2 with
    | some e => some (o1, some e)
    | none =>
      some ({ o1 with
                ignore := procList o1.ignore
                includeL := procList o1.includeL
                limit := procList o1.limit }, none)

/-- Write a value into slot 0 of a Go slice; `none` models the
index-out-of-range panic on an empty slice. -/
def setHead (l : List String) (v : String) : Option (List String) :=
  match l with
  | [] => none
  | _ :: t => some (v :: t)

/-- The focus override of `OverrideByHTTP` (logger.go:300-304): `f=all`
clears the focus, any other non-empty `f` replaces it. -/
def overrideFocus (r : HRequest) (o : RenderOpts) : RenderOpts :=
  let f := r.formValue "f"
  if f = "all" then { o with focus := "" }
  else if f ≠ "" then { o with focus := f } else o

/-- The boolean overrides of `OverrideByHTTP` (logger.go:305-313):
presence of `std` clears `nostd`, presence of `nointer` and `refresh`
set their flags. -/
def overrideFlags (r : HRequest) (o : RenderOpts) : RenderOpts :=
  let o := if r.formValue "std" ≠ "" then { o with nostd := false } else o
  let o := if r.formValue "nointer" ≠ "" then { o with nointer := true } else o
  if r.formValue "refresh" ≠ "" then { o with refresh := true } else o

/-- The list overrides of `OverrideByHTTP` (logger.go:314-325): each
present parameter is written into slot 0 of its list, in source order
(group, limit, ignore, include).  `none` models the index panic. -/
def overrideLists (r : HRequest) (o : RenderOpts) : Option RenderOpts :=
  match (if r.formValue "group" ≠ "" then setHead o.group (r.formValue "group")
         else some o.group) with
  | none => none
  | some g =>
    let o := { o with group := g }
    match (if r.formValue "limit" ≠ "" then setHead o.limit (r.formValue "limit")
           else some o.limit) with
    | none => none
    | some l =>
      let o := { o with limit := l }
      match (if r.formValue "ignore" ≠ "" then setHead o.ignore (r.formValue "ignore")
             else some o.ignore) with
      | none => none
      | some ig =>
        let o := { o with ignore := ig }
        match (if r.formValue "include" ≠ "" then setHead o.includeL (r.formValue "include")
               else some o.includeL) with
        | none => none
        | some inc => some { o with includeL := inc }

/-- `OverrideByHTTP` (logger.go:299-326): the overrides applied in
source order — focus, booleans, then the four lists.  `none` models the
panic of writing index 0 of an empty option list. -/
def overrideByHTTP (r : HRequest) (o : RenderOpts) : Option RenderOpts :=
  overrideLists r (overrideFlags r (overrideFocus r o))

/-- The focus-resolution part of `Render` (logger.go:337-364).  Returns
the resolved focus package (or `none` when no focus is set) or the error
message, together with the lines printed to stderr (one per candidate
path in the ambiguous case).  `fmt.Errorf("focus failed: %v", err)`
formats the nil `err` as `<nil>`. -/
def resolveFocus (prog pkgs : List GoPackage) (focus : String) :
    Except String (Option GoPackage) × List String :=
  if focus = "" then (.ok none, [])
  else
    match importedPackage prog focus with
    | some p => (.ok (some p), [])
    | none =>
      if goContains focus '/' then (.error "focus failed: <nil>", [])
      else
        let foundPaths := (pkgs.filter (fun p => p.name = focus)).map GoPackage.path
        if foundPaths = [] then
          (.error ("focus failed, could not find package: " ++ focus), [])
        else if foundPaths.length > 1 then
          (.error ("focus failed, found multiple packages with name: " ++ focus),
           foundPaths.map (fun p => " - " ++ p ++ "\n"))
        else
          match foundPaths with
          | [q] =>
            match importedPackage prog q with
            | some p => (.ok (some p), [])
            | none => (.error "focus failed: <nil>", [])
          | _ => (.error "focus failed: <nil>", [])

/-- Wrapping of a `PrintOutput` result by `Render` (logger.go:366-384):
errors get the `processing failed` message. -/
def wrapPO (r : Except String (List Nat)) : Except String (List Nat) :=
  match r with
  | .error e => .error ("processing failed: " ++ e)
  | .ok b => .ok b

/-- `Render` (logger.go:330-385): resolve the focus, then delegate to
`output.PrintOutput` — an external component, passed here as the
parameter `po` taking the resolved focus and the current options.
Returns the result and the stderr lines. -/
def render (po : Option GoPackage → RenderOpts → Except String (List Nat))
    (prog pkgs : List GoPackage) (o : RenderOpts) :
    Except String (List Nat) × List String :=
  match resolveFocus prog pkgs o.focus with
  | (.error e, lines) => (.error e, lines)
  | (.ok fp, lines) => (wrapPO (po fp o), lines)

/-- The focus component of the cache file name: `"all"` when no focus is
set (logger.go:392-395, 413-416). -/
def focusOr (o : RenderOpts) : String :=
  if o.focus = "" then "all" else o.focus

/-- `FindCachedImg` (logger.go:387-406): empty result when caching is
disabled or refresh is set; otherwise the joined cache path when it
exists on disk, else empty. -/
def findCachedImg (fs : FS) (a : Analysis) : String :=
  if a.opts.cacheDir = "" || a.opts.refresh then ""
  else
    let focusFilePath := focusOr a.opts ++ "." ++ a.outputFormat
    let absFilePath := goJoin a.opts.cacheDir focusFilePath
    if fs.existsPath absFilePath then absFilePath else ""

/-- `copyFile` (logger.go:446-470): stat the source (error when absent),
reject non-regular files, then write the bytes to the destination. -/
def copyFile (src dst : String) (fs : FS) : Except String (Nat × FS) :=
  match fs.files src with
  | none => .error ("stat " ++ src ++ ": no such file or directory")
  | some f =>
    if ¬ f.regular then .error (src ++ " is not a regular file")
    else
      .ok (f.content.length,
           { fs with files := fun p =>
               if p = dst then some { regular := true, content := f.content }
               else fs.files p })

/-- `os.MkdirAll`: record the directory as existing. -/
def mkdirAll (d : String) (fs : FS) : FS :=
  { fs with dirs := d :: fs.dirs }

/-- The directory `CacheImg` creates: the joined cache path with the
trailing non-separator characters trimmed off (logger.go:417-420). -/
def cacheDirOf (a : Analysis) : String :=
  trimRightFunc (goJoin a.opts.cacheDir (focusOr a.opts))
    (fun r => r ≠ '\\' && r ≠ '/')

/-- The file path `CacheImg` writes: `Join(cacheDir, focus) + "." +
outputFormat` (logger.go:417, 426). -/
def cacheWritePath (a : Analysis) : String :=
  goJoin a.opts.cacheDir (focusOr a.opts) ++ "." ++ a.outputFormat

/-- `CacheImg` (logger.go:408-433): no-op when caching is disabled or
the image path is empty; otherwise create the cache directory and copy
the image bytes to the cache path. -/
def cacheImg (a : Analysis) (img : String) (fs : FS) : Except String FS :=
  if a.opts.cacheDir = "" || img = "" then .ok fs
  else
    let fs := mkdirAll (cacheDirOf a) fs
    match copyFile img (cacheWritePath a) fs with
    | .error e => .error e
    | .ok (_, fs) => .ok fs

/-- An HTTP response produced by the handler in `main.go`:
`http.NotFound`, `http.Error` with a status and body, `http.ServeFile`,
the raw dot body for `format=dot`, or a goroutine panic (out-of-range
slice write in `OverrideByHTTP` / `ProcessListArgs`). -/
inductive HResponse where
  | notFound
  | errorResp (status : Nat) (body : String)
  | serveFile (path : String)
  | dotBody (out : List Nat)
  | panicked
  deriving DecidableEq, Repr

/-- The request handler (main.go:219-279).  The analysis object is
always present in the context (the middleware injects it), and the two
external components are parameters: `po` for `output.PrintOutput` and
`dti` for `dot.DotToImage`.  Returns the response together with the
final analysis state and file system. -/
def handler (po : Option GoPackage → RenderOpts → Except String (List Nat))
    (dti : List Nat → Except String String)
    (prog pkgs : List GoPackage)
    (a : Analysis) (fs : FS) (r : HRequest) : HResponse × Analysis × FS :=
  if r.path ≠ "/" ∧ ¬ (goHasSuffix r.path ".svg") then (.notFound, a, fs)
  else
    match overrideByHTTP r a.opts with
    | none => (.panicked, a, fs)
    | some opts1 =>
      let a := { a with opts := opts1 }
      let img := findCachedImg fs a
      if img ≠ "" then (.serveFile img, a, fs)
      else
        match processListArgs a.opts with
        | none => (.panicked, a, fs)
        | some (opts2, some _) =>
          (.errorResp 400 "invalid parameters", { a with opts := opts2 }, fs)
        | some (opts2, none) =>
          let a := { a with opts := opts2 }
          match (render po prog pkgs a.opts).1 with
          | .error e => (.errorResp 500 e, a, fs)
          | .ok out =>
            if r.formValue "format" = "dot" then (.dotBody out, a, fs)
            else
              match dti out with
              | .error e => (.errorResp 500 e, a, fs)
              | .ok img2 =>
                match cacheImg a img2 fs with
                | .error e =>
                  (.errorResp 400 ("cache img error: " ++ e), a, fs)
                | .ok fs2 => (.serveFile img2, a, fs2)

/-- `Version()` (main.go:109-111). -/
def versionString (version commit : String) : String :=
  version ++ " built from git " ++ commit

/-- The flags registered before `flag.Parse()` runs (main.go:123): the
package-level flag variables (main.go:82-94) and the Graphviz options
registered at the top of `main` (main.go:115-121).  The `tests`, `http`,
`skipbrowser`, `file`, `algo` and `version` flags are only registered
after the parse (main.go:125-132). -/
def flagsRegisteredAtParse : List String :=
  ["focus", "group", "limit", "ignore", "include", "nostd", "nointer",
   "cacheDir", "graphviz", "debug", "format", "tags",
   "minlen", "nodesep", "nodeshape", "nodestyle", "rankdir"]

/-- A command line, already tokenized: the flag names given (e.g.
`version` for `-version`) and the positional arguments. -/
structure CmdLine where
  flagsGiven : List String
  positionals : List String

/-- How an invocation of `main` ends before any analysis work:
`flag.Parse` aborting on an unknown flag (exit 2), the version branch
(print and exit 0), the usage branch (exit 2), or proceeding to the
analysis. -/
inductive MainOutcome where
  | parseFailure
  | versionShown
  | usageShown
  | analysisRun
  deriving DecidableEq, Repr

/-- The start of `main` (main.go:114-146).  `flag.Parse` fails on any
flag that is not yet registered.  The `version` flag is only registered
afterwards (main.go:132), so at the check on main.go:134 its value is
the parsed value only if it was registered at parse time — otherwise the
default `false`. -/
def runMainEntry (cmd : CmdLine) : MainOutcome :=
  if cmd.flagsGiven.any (fun n => ¬ flagsRegisteredAtParse.contains n) then
    .parseFailure
  else
    let versionFlag :=
      flagsRegisteredAtParse.contains "version" && cmd.flagsGiven.contains "version"
    if versionFlag then .versionShown
    else if cmd.positionals.length ≠ 1 then .usageShown
    else .analysisRun

/-- The analysis object built by `main` (main.go:159):
`analysis.NewAnalysis(*outputFile)` — the output-file flag value, not
the format flag, becomes the session's output image format. -/
def mainAnalysis (outputFileFlag : String) (opts : RenderOpts) : Analysis :=
  newAnalysis outputFileFlag opts

/-! ## Helper lemmas -/

theorem validTokens_nil : validTokens [] = [] := rfl

theorem validTokens_cons (g : String) (rest : List String) :
    validTokens (g :: rest) =
      if goTrimSpace g = "" then validTokens rest else goTrimSpace g :: validTokens rest := by
  by_cases h : goTrimSpace g = "" <;> simp [validTokens, List.filter_cons, h]

theorem groupStep_nil (orig acc : List String) :
    groupStep orig [] acc = (if acc = [] then orig else acc, none) := rfl

theorem groupStep_cons (orig : List String) (g : String) (rest acc : List String) :
    groupStep orig (g :: rest) acc =
      if goTrimSpace g = "" then groupStep orig rest acc
      else if goTrimSpace g ≠ "pkg" ∧ goTrimSpace g ≠ "type" then
        (if acc = [] then orig else acc, some "invalid group option")
      else groupStep orig rest (acc ++ [goTrimSpace g]) := rfl

/-- When every token is valid, the group loop appends all the non-blank
trimmed tokens and reports no error. -/
theorem groupStep_all_valid (orig : List String) (l : List String) :
    ∀ acc : List String, (∀ t ∈ validTokens l, t = "pkg" ∨ t = "type") →
      groupStep orig l acc =
        (if acc ++ validTokens l = [] then orig else acc ++ validTokens l, none) := by
  induction l with
  | nil => intro acc _; simp [groupStep_nil, validTokens]
  | cons g rest ih =>
    intro acc hv
    rw [groupStep_cons]
    by_cases hg : goTrimSpace g = ""
    · rw [if_pos hg, validTokens_cons, if_pos hg]
      exact ih acc (fun t ht => hv t (by rw [validTokens_cons, if_pos hg]; exact ht))
    · have hmem : goTrimSpace g = "pkg" ∨ goTrimSpace g = "type" :=
        hv (goTrimSpace g)
          (by rw [validTokens_cons, if_neg hg]; exact List.mem_cons_self _ _)
      have hnot : ¬(goTrimSpace g ≠ "pkg" ∧ goTrimSpace g ≠ "type") := by
        rcases hmem with h | h <;> simp [h]
      rw [if_neg hg, if_neg hnot,
        ih (acc ++ [goTrimSpace g])
          (fun t ht => hv t
            (by rw [validTokens_cons, if_neg hg]; exact List.mem_cons_of_mem _ ht)),
        validTokens_cons, if_neg hg]
      have hne1 : acc ++ [goTrimSpace g] ++ validTokens rest ≠ [] := by simp
      have hne2 : acc ++ goTrimSpace g :: validTokens rest ≠ [] := by simp
      rw [if_neg hne1, if_neg hne2, List.append_assoc, List.singleton_append]

/-- When the first invalid non-blank token is reached, the group loop
stops with the error, leaving the valid tokens accumulated so far (or
the original value when there are none). -/
theorem groupStep_invalid (orig : List String) (l1 : List String) (t : String)
    (l2 : List String) :
    ∀ acc : List String, (∀ u ∈ validTokens l1, u = "pkg" ∨ u = "type") →
      goTrimSpace t ≠ "" → goTrimSpace t ≠ "pkg" → goTrimSpace t ≠ "type" →
      groupStep orig (l1 ++ t :: l2) acc =
        (if acc ++ validTokens l1 = [] then orig else acc ++ validTokens l1,
         some "invalid group option") := by
  induction l1 with
  | nil =>
    intro acc _ hne hp hty
    rw [List.nil_append, groupStep_cons, if_neg hne,
      if_pos (show goTrimSpace t ≠ "pkg" ∧ goTrimSpace t ≠ "type" from ⟨hp, hty⟩)]
    simp [validTokens]
  | cons g rest ih =>
    intro acc hv hne hp hty
    rw [List.cons_append, groupStep_cons]
    by_cases hg : goTrimSpace g = ""
    · rw [if_pos hg, validTokens_cons, if_pos hg]
      exact ih acc (fun u hu => hv u (by rw [validTokens_cons, if_pos hg]; exact hu))
        hne hp hty
    · have hmem : goTrimSpace g = "pkg" ∨ goTrimSpace g = "type" :=
        hv (goTrimSpace g)
          (by rw [validTokens_cons, if_neg hg]; exact List.mem_cons_self _ _)
      have hnot : ¬(goTrimSpace g ≠ "pkg" ∧ goTrimSpace g ≠ "type") := by
        rcases hmem with h | h <;> simp [h]
      rw [if_neg hg, if_neg hnot,
        ih (acc ++ [goTrimSpace g])
          (fun u hu => hv u
            (by rw [validTokens_cons, if_neg hg]; exact List.mem_cons_of_mem _ hu))
          hne hp hty,
        validTokens_cons, if_neg hg]
      have hne1 : acc ++ [goTrimSpace g] ++ validTokens rest ≠ [] := by simp
      have hne2 : acc ++ goTrimSpace g :: validTokens rest ≠ [] := by simp
      rw [if_neg hne1, if_neg hne2, List.append_assoc, List.singleton_append]

/-! ## Claims -/

/-- C2 (counterexample): at grouping string `"pkg,zzz"` the claim fails:
`ProcessListArgs` does return the invalid-configuration error, but the
group list is mutated to `["pkg"]` — it is not left unchanged as
`["pkg,zzz"]`. -/
theorem processListArgs_group_mutation_cex :
    processListArgs
        { cacheDir := "", focus := "main", group := ["pkg,zzz"], ignore := [""],
          includeL := [""], limit := [""], nointer := false, refresh := false,
          nostd := false, algo := "" } =
      some ({ cacheDir := "", focus := "main", group := ["pkg"], ignore := [""],
              includeL := [""], limit := [""], nointer := false, refresh := false,
              nostd := false, algo := "" }, some "invalid group option")
    ∧ (["pkg"] : List String) ≠ ["pkg,zzz"] := by
  constructor
  · rfl
  · decide

/-- C2 (amended): if every trimmed non-blank token of the grouping
string is `pkg` or `type`, `ProcessListArgs` succeeds; the group list
becomes exactly those tokens in order when at least one exists and is
left unchanged when the string has no non-blank token, and the other
three lists are re-split.  If the comma-split token list has an invalid
non-blank token, `ProcessListArgs` returns the invalid-configuration
error, the group list ends as the valid tokens seen before the invalid
one (unchanged when there were none), and the ignore/include/limit
lists are not processed. -/
theorem processListArgs_spec (o : RenderOpts) (g0 : String) (gt : List String)
    (hg : o.group = g0 :: gt) :
    ((∀ t ∈ validTokens (goSplitComma g0), t = "pkg" ∨ t = "type") →
      processListArgs o =
        some ({ o with
                  group := if validTokens (goSplitComma g0) = [] then o.group
                           else validTokens (goSplitComma g0),
                  ignore := procList o.ignore,
                  includeL := procList o.includeL,
                  limit := procList o.limit }, none))
    ∧ (∀ l1 t l2, goSplitComma g0 = l1 ++ t :: l2 →
        (∀ u ∈ validTokens l1, u = "pkg" ∨ u = "type") →
        goTrimSpace t ≠ "" → goTrimSpace t ≠ "pkg" → goTrimSpace t ≠ "type" →
        processListArgs o =
          some ({ o with
                    group := if validTokens l1 = [] then o.group
                             else validTokens l1 }, some "invalid group option")) := by
  constructor
  · intro hv
    rw [processListArgs, hg]
    dsimp only
    rw [groupStep_all_valid (g0 :: gt) (goSplitComma g0) [] hv]
    rfl
  · intro l1 t l2 hsplit hv hne hp hty
    rw [processListArgs, hg]
    dsimp only
    rw [hsplit, groupStep_invalid (g0 :: gt) l1 t l2 [] hv hne hp hty]
    rfl

/-- C2 (witness): the amended claim at grouping string `" pkg , type "`
with ignore `" a , ,b "`, include blank and limit `"x"`. -/
theorem processListArgs_spec_witness :
    processListArgs
        { cacheDir := "", focus := "main", group := [" pkg , type "],
          ignore := [" a , ,b "], includeL := [""], limit := ["x"],
          nointer := false, refresh := false, nostd := false, algo := "" } =
      some ({ cacheDir := "", focus := "main", group := ["pkg", "type"],
              ignore := ["a", "b"], includeL := [], limit := ["x"],
              nointer := false, refresh := false, nostd := false, algo := "" },
            none) := by
  have h := (processListArgs_spec
      { cacheDir := "", focus := "main", group := [" pkg , type "],
        ignore := [" a , ,b "], includeL := [""], limit := ["x"],
        nointer := false, refresh := false, nostd := false, algo := "" }
      " pkg , type " [] rfl).1 (by decide)
  rw [h]
  decide

theorem overrideFocus_spec (r : HRequest) (o : RenderOpts) :
    overrideFocus r o =
      { o with focus := if r.formValue "f" = "all" then ""
               else if r.formValue "f" ≠ "" then r.formValue "f" else o.focus } := by
  by_cases h1 : r.formValue "f" = "all"
  · simp [overrideFocus, h1]
  · by_cases h2 : r.formValue "f" = "" <;> simp [overrideFocus, h1, h2]

theorem overrideFlags_spec (r : HRequest) (o : RenderOpts) :
    overrideFlags r o =
      { o with
        nostd := if r.formValue "std" ≠ "" then false else o.nostd
        nointer := if r.formValue "nointer" ≠ "" then true else o.nointer
        refresh := if r.formValue "refresh" ≠ "" then true else o.refresh } := by
  by_cases h3 : r.formValue "std" = "" <;>
    by_cases h4 : r.formValue "nointer" = "" <;>
    by_cases h5 : r.formValue "refresh" = "" <;>
    simp [overrideFlags, h3, h4, h5]

theorem overrideLists_spec (r : HRequest) (o : RenderOpts)
    (g0 : String) (gt : List String) (l0 : String) (lt : List String)
    (i0 : String) (it : List String) (c0 : String) (ct : List String)
    (hg : o.group = g0 :: gt) (hl : o.limit = l0 :: lt)
    (hi : o.ignore = i0 :: it) (hc : o.includeL = c0 :: ct) :
    overrideLists r o = some
      { o with
        group := (if r.formValue "group" ≠ "" then r.formValue "group" else g0) :: gt
        limit := (if r.formValue "limit" ≠ "" then r.formValue "limit" else l0) :: lt
        ignore := (if r.formValue "ignore" ≠ "" then r.formValue "ignore" else i0) :: it
        includeL := (if r.formValue "include" ≠ "" then r.formValue "include" else c0) :: ct } := by
  obtain ⟨cd, fo, gr, ig, inc, li, ni, re, ns, al⟩ := o
  simp only at hg hl hi hc
  subst hg hl hi hc
  by_cases h6 : r.formValue "group" = "" <;>
    by_cases h7 : r.formValue "limit" = "" <;>
    by_cases h8 : r.formValue "ignore" = "" <;>
    by_cases h9 : r.formValue "include" = "" <;>
    simp [overrideLists, setHead, h6, h7, h8, h9]

/-- C3: `OverrideByHTTP` on options whose four lists are non-empty:
`f=all` clears the focus, any other non-empty `f` replaces it, an empty
`f` leaves it; non-empty `std` clears the omit-standard-library flag
whatever its value; non-empty `nointer` and `refresh` set their flags;
non-empty `group`/`limit`/`ignore`/`include` overwrite slot 0 of the
corresponding list. -/
theorem overrideByHTTP_spec (r : HRequest) (o : RenderOpts)
    (g0 : String) (gt : List String) (l0 : String) (lt : List String)
    (i0 : String) (it : List String) (c0 : String) (ct : List String)
    (hg : o.group = g0 :: gt) (hl : o.limit = l0 :: lt)
    (hi : o.ignore = i0 :: it) (hc : o.includeL = c0 :: ct) :
    overrideByHTTP r o = some
      { o with
        focus := if r.formValue "f" = "all" then ""
                 else if r.formValue "f" ≠ "" then r.formValue "f" else o.focus
        nostd := if r.formValue "std" ≠ "" then false else o.nostd
        nointer := if r.formValue "nointer" ≠ "" then true else o.nointer
        refresh := if r.formValue "refresh" ≠ "" then true else o.refresh
        group := (if r.formValue "group" ≠ "" then r.formValue "group" else g0) :: gt
        limit := (if r.formValue "limit" ≠ "" then r.formValue "limit" else l0) :: lt
        ignore := (if r.formValue "ignore" ≠ "" then r.formValue "ignore" else i0) :: it
        includeL := (if r.formValue "include" ≠ "" then r.formValue "include" else c0) :: ct } := by
  have hgX : (overrideFlags r (overrideFocus r o)).group = g0 :: gt := by
    rw [overrideFlags_spec, overrideFocus_spec]; exact hg
  have hlX : (overrideFlags r (overrideFocus r o)).limit = l0 :: lt := by
    rw [overrideFlags_spec, overrideFocus_spec]; exact hl
  have hiX : (overrideFlags r (overrideFocus r o)).ignore = i0 :: it := by
    rw [overrideFlags_spec, overrideFocus_spec]; exact hi
  have hcX : (overrideFlags r (overrideFocus r o)).includeL = c0 :: ct := by
    rw [overrideFlags_spec, overrideFocus_spec]; exact hc
  rw [overrideByHTTP,
    overrideLists_spec r _ g0 gt l0 lt i0 it c0 ct hgX hlX hiX hcX,
    overrideFlags_spec, overrideFocus_spec]

/-- C3 (witness): `f=all` with a previously set focus, `std=1` with the
omit-standard-library flag set, and a `group` override. -/
theorem overrideByHTTP_spec_witness :
    overrideByHTTP
        ⟨"/", fun n => if n = "f" then "all" else if n = "std" then "1"
              else if n = "group" then "type" else ""⟩
        { cacheDir := "", focus := "main", group := ["pkg"], ignore := [""],
          includeL := [""], limit := [""], nointer := false, refresh := false,
          nostd := true, algo := "" } =
      some { cacheDir := "", focus := "", group := ["type"], ignore := [""],
             includeL := [""], limit := [""], nointer := false, refresh := false,
             nostd := false, algo := "" } := by
  have h := overrideByHTTP_spec
      ⟨"/", fun n => if n = "f" then "all" else if n = "std" then "1"
            else if n = "group" then "type" else ""⟩
      { cacheDir := "", focus := "main", group := ["pkg"], ignore := [""],
        includeL := [""], limit := [""], nointer := false, refresh := false,
        nostd := true, algo := "" }
      "pkg" [] "" [] "" [] "" [] rfl rfl rfl rfl
  rw [h]
  rfl

theorem overrideLists_ignore_empty (r : HRequest) (o : RenderOpts)
    (h : o.ignore = []) (hp : r.formValue "ignore" ≠ "") :
    overrideLists r o = none := by
  obtain ⟨cd, fo, gr, ig, inc, li, ni, re, ns, al⟩ := o
  simp only at h
  subst h
  by_cases h6 : r.formValue "group" = "" <;>
    by_cases h7 : r.formValue "limit" = "" <;>
    rcases gr with _ | ⟨g0, gt⟩ <;> rcases li with _ | ⟨l0, lt⟩ <;>
    simp [overrideLists, setHead, hp, h6, h7]

theorem overrideLists_include_empty (r : HRequest) (o : RenderOpts)
    (h : o.includeL = []) (hp : r.formValue "include" ≠ "") :
    overrideLists r o = none := by
  obtain ⟨cd, fo, gr, ig, inc, li, ni, re, ns, al⟩ := o
  simp only at h
  subst h
  by_cases h6 : r.formValue "group" = "" <;>
    by_cases h7 : r.formValue "limit" = "" <;>
    by_cases h8 : r.formValue "ignore" = "" <;>
    rcases gr with _ | ⟨g0, gt⟩ <;> rcases li with _ | ⟨l0, lt⟩ <;>
    rcases ig with _ | ⟨i0, it⟩ <;>
    simp [overrideLists, setHead, hp, h6, h7, h8]

theorem overrideLists_limit_empty (r : HRequest) (o : RenderOpts)
    (h : o.limit = []) (hp : r.formValue "limit" ≠ "") :
    overrideLists r o = none := by
  obtain ⟨cd, fo, gr, ig, inc, li, ni, re, ns, al⟩ := o
  simp only at h
  subst h
  by_cases h6 : r.formValue "group" = "" <;>
    rcases gr with _ | ⟨g0, gt⟩ <;>
    simp [overrideLists, setHead, hp, h6]

/-- Writing the `ignore` query override into an empty ignore list
panics (models `a.opts.ignore[0] = ign` at logger.go:321). -/
theorem overrideByHTTP_ignore_empty (r : HRequest) (o : RenderOpts)
    (h : o.ignore = []) (hp : r.formValue "ignore" ≠ "") :
    overrideByHTTP r o = none := by
  rw [overrideByHTTP]
  exact overrideLists_ignore_empty r _
    (by rw [overrideFlags_spec, overrideFocus_spec]; exact h) hp

/-- Writing the `include` query override into an empty include list
panics (models `a.opts.include[0] = inc` at logger.go:324). -/
theorem overrideByHTTP_include_empty (r : HRequest) (o : RenderOpts)
    (h : o.includeL = []) (hp : r.formValue "include" ≠ "") :
    overrideByHTTP r o = none := by
  rw [overrideByHTTP]
  exact overrideLists_include_empty r _
    (by rw [overrideFlags_spec, overrideFocus_spec]; exact h) hp

/-- Writing the `limit` query override into an empty limit list panics
(models `a.opts.limit[0] = l` at logger.go:318). -/
theorem overrideByHTTP_limit_empty (r : HRequest) (o : RenderOpts)
    (h : o.limit = []) (hp : r.formValue "limit" ≠ "") :
    overrideByHTTP r o = none := by
  rw [overrideByHTTP]
  exact overrideLists_limit_empty r _
    (by rw [overrideFlags_spec, overrideFocus_spec]; exact h) hp

/-- C9: processing a blank ignore/include/limit configuration string
empties the corresponding list, and a later `OverrideByHTTP` with that
query parameter present writes slot 0 of the empty list — an
out-of-range panic, reachable through the HTTP handler. -/
theorem processListArgs_then_override_panics
    (o o' : RenderOpts) (hplist : processListArgs o = some (o', none)) :
    (∀ s t, o.ignore = s :: t → validTokens (goSplitComma s) = [] →
      o'.ignore = [] ∧ ∀ r : HRequest, r.formValue "ignore" ≠ "" →
        overrideByHTTP r o' = none)
    ∧ (∀ s t, o.includeL = s :: t → validTokens (goSplitComma s) = [] →
        o'.includeL = [] ∧ ∀ r : HRequest, r.formValue "include" ≠ "" →
          overrideByHTTP r o' = none)
    ∧ (∀ s t, o.limit = s :: t → validTokens (goSplitComma s) = [] →
        o'.limit = [] ∧ ∀ r : HRequest, r.formValue "limit" ≠ "" →
          overrideByHTTP r o' = none)
    ∧ (∀ (po : Option GoPackage → RenderOpts → Except String (List Nat))
        (dti : List Nat → Except String String) (prog pkgs : List GoPackage)
        (fmt : String) (fs : FS) (r : HRequest),
        o'.ignore = [] → r.path = "/" → r.formValue "ignore" ≠ "" →
        (handler po dti prog pkgs ⟨o', fmt⟩ fs r).1 = .panicked) := by
  have hfields : o'.ignore = procList o.ignore ∧ o'.includeL = procList o.includeL
      ∧ o'.limit = procList o.limit := by
    rw [processListArgs] at hplist
    cases hG : o.group with
    | nil => rw [hG] at hplist; exact absurd hplist (by simp)
    | cons g0 gt =>
      rw [hG] at hplist
      dsimp only at hplist
      cases hE : (groupStep (g0 :: gt) (goSplitComma g0) []).2 with
      | some e => rw [hE] at hplist; simp at hplist
      | none =>
        rw [hE] at hplist
        simp only [Option.some.injEq, Prod.mk.injEq] at hplist
        obtain ⟨ho, -⟩ := hplist
        refine ⟨?_, ?_, ?_⟩ <;> rw [← ho]

  refine ⟨?_, ?_, ?_, ?_⟩
  · intro s t hi hv
    have hig : o'.ignore = [] := by
      rw [hfields.1, hi]; exact hv
    exact ⟨hig, fun r hr => overrideByHTTP_ignore_empty r o' hig hr⟩
  · intro s t hi hv
    have hig : o'.includeL = [] := by
      rw [hfields.2.1, hi]; exact hv
    exact ⟨hig, fun r hr => overrideByHTTP_include_empty r o' hig hr⟩
  · intro s t hi hv
    have hig : o'.limit = [] := by
      rw [hfields.2.2, hi]; exact hv
    exact ⟨hig, fun r hr => overrideByHTTP_limit_empty r o' hig hr⟩
  · intro po dti prog pkgs fmt fs r hig hpath hr
    have hno : ¬(r.path ≠ "/" ∧ ¬ (goHasSuffix r.path ".svg")) := by
      simp [hpath]
    rw [handler, if_neg hno]
    rw [show overrideByHTTP r (Analysis.mk o' fmt).opts = none from
      overrideByHTTP_ignore_empty r o' hig hr]

/-- C9 (witness): the default-empty ignore string makes the list empty,
and then an `ignore=x` request parameter panics. -/
theorem processListArgs_then_override_panics_witness :
    overrideByHTTP
        ⟨"/", fun n => if n = "ignore" then "x" else ""⟩
        { cacheDir := "", focus := "main", group := ["pkg"], ignore := [],
          includeL := [], limit := [], nointer := false, refresh := false,
          nostd := false, algo := "" } = none := by
  have h := (processListArgs_then_override_panics
      { cacheDir := "", focus := "main", group := ["pkg"], ignore := [""],
        includeL := [""], limit := [""], nointer := false, refresh := false,
        nostd := false, algo := "" }
      { cacheDir := "", focus := "main", group := ["pkg"], ignore := [],
        includeL := [], limit := [], nointer := false, refresh := false,
        nostd := false, algo := "" } (by decide)).1 "" [] rfl (by decide)
  exact h.2 ⟨"/", fun n => if n = "ignore" then "x" else ""⟩ (by decide)

/-- C1: focus resolution in `Render`: an exact import-path match is
used directly; a slash-containing target with no exact match is a focus
error; otherwise a search by bare package name — no match is a
not-found error, several matches is an ambiguity error with the
candidate paths written one per line to stderr, and a unique match
resolves that package. -/
theorem render_focus_resolution
    (po : Option GoPackage → RenderOpts → Except String (List Nat))
    (prog pkgs : List GoPackage) (o : RenderOpts) (hfoc : o.focus ≠ "") :
    (∀ p, importedPackage prog o.focus = some p →
      render po prog pkgs o = (wrapPO (po (some p) o), []))
    ∧ (importedPackage prog o.focus = none → goContains o.focus '/' = true →
        render po prog pkgs o = (.error "focus failed: <nil>", []))
    ∧ (importedPackage prog o.focus = none → goContains o.focus '/' = false →
        pkgs.filter (fun p => p.name = o.focus) = [] →
        render po prog pkgs o =
          (.error ("focus failed, could not find package: " ++ o.focus), []))
    ∧ (∀ ps, importedPackage prog o.focus = none → goContains o.focus '/' = false →
        (pkgs.filter (fun p => p.name = o.focus)).map GoPackage.path = ps →
        1 < ps.length →
        render po prog pkgs o =
          (.error ("focus failed, found multiple packages with name: " ++ o.focus),
           ps.map (fun p => " - " ++ p ++ "\n")))
    ∧ (∀ pm, importedPackage prog o.focus = none → goContains o.focus '/' = false →
        pkgs.filter (fun p => p.name = o.focus) = [pm] →
        importedPackage prog pm.path = some pm →
        render po prog pkgs o = (wrapPO (po (some pm) o), [])) := by
  refine ⟨?_, ?_, ?_, ?_, ?_⟩
  · intro p hp
    have hres : resolveFocus prog pkgs o.focus = (.ok (some p), []) := by
      rw [resolveFocus, if_neg hfoc, hp]
    rw [render, hres]
  · intro himp hc
    have hres : resolveFocus prog pkgs o.focus = (.error "focus failed: <nil>", []) := by
      simp [resolveFocus, hfoc, himp, hc]
    rw [render, hres]
  · intro himp hc hfil
    have hres : resolveFocus prog pkgs o.focus =
        (.error ("focus failed, could not find package: " ++ o.focus), []) := by
      simp [resolveFocus, hfoc, himp, hc, hfil]
    rw [render, hres]
  · intro ps himp hc hmap hlen
    have hne : ps ≠ [] := by
      intro hnil; rw [hnil] at hlen; simp at hlen
    have hres : resolveFocus prog pkgs o.focus =
        (.error ("focus failed, found multiple packages with name: " ++ o.focus),
         ps.map (fun p => " - " ++ p ++ "\n")) := by
      simp [resolveFocus, hfoc, himp, hc, hmap, hne, hlen]
    rw [render, hres]
  · intro pm himp hc hfil himp2
    have hres : resolveFocus prog pkgs o.focus = (.ok (some pm), []) := by
      simp [resolveFocus, hfoc, himp, hc, hfil, himp2]
    rw [render, hres]

/-- C1 (witness): two loaded packages named `util`: the ambiguity error
and its per-line candidate list on stderr. -/
theorem render_focus_resolution_witness :
    render (fun _ _ => .ok [])
        [⟨"util", "a/util", []⟩, ⟨"util", "b/util", []⟩]
        [⟨"util", "a/util", []⟩, ⟨"util", "b/util", []⟩]
        { cacheDir := "", focus := "util", group := ["pkg"], ignore := [],
          includeL := [], limit := [], nointer := false, refresh := false,
          nostd := false, algo := "" } =
      (.error "focus failed, found multiple packages with name: util",
       [" - a/util\n", " - b/util\n"]) := by
  have h := (render_focus_resolution (fun _ _ => .ok [])
      [⟨"util", "a/util", []⟩, ⟨"util", "b/util", []⟩]
      [⟨"util", "a/util", []⟩, ⟨"util", "b/util", []⟩]
      { cacheDir := "", focus := "util", group := ["pkg"], ignore := [],
        includeL := [], limit := [], nointer := false, refresh := false,
        nostd := false, algo := "" }
      (by decide)).2.2.2.1 ["a/util", "b/util"] (by decide) (by decide)
      (by decide) (by decide)
  exact h

/-- C4: with the rta algorithm, a program with no package that is named
`main` and declares a `main` function fails with `no main packages`;
otherwise the first such package becomes the session's main package and
every such package is a root. -/
theorem doAnalysis_rta_main_packages (pkgs : List (Option GoPackage)) :
    ((∀ p : GoPackage, some p ∈ pkgs → ¬(p.name = "main" ∧ p.funcs.contains "main")) →
      doAnalysisSwitch "rta" pkgs = .error "no main packages")
    ∧ (∀ m ms,
        pkgs.filterMap (fun q => match q with
          | some p => if p.name = "main" ∧ p.funcs.contains "main" then some p else none
          | none => none) = m :: ms →
        doAnalysisSwitch "rta" pkgs = .ok ⟨some m, m :: ms⟩) := by
  constructor
  · intro h
    have hnil : pkgs.filterMap (fun q => match q with
        | some p => if p.name = "main" ∧ p.funcs.contains "main" then some p else none
        | none => none) = [] := by
      rw [List.filterMap_eq_nil_iff]
      intro q hq
      cases q with
      | none => rfl
      | some p => exact if_neg (h p hq)
    have hmp : mainPackages pkgs = .error "no main packages" := by
      rw [mainPackages]
      rw [if_pos hnil]
    simp [doAnalysisSwitch, hmp]
  · intro m ms hfil
    have hmp : mainPackages pkgs = .ok (m :: ms) := by
      rw [mainPackages]
      rw [hfil]
      simp
    simp [doAnalysisSwitch, hmp]

/-- C4 (witness): two main packages among the loaded ones — the first
becomes the session main package and both are roots. -/
theorem doAnalysis_rta_main_packages_witness :
    doAnalysisSwitch "rta"
        [none, some ⟨"main", "cmd/a", ["main"]⟩, some ⟨"util", "u", ["go"]⟩,
         some ⟨"main", "cmd/b", ["main"]⟩] =
      .ok ⟨some ⟨"main", "cmd/a", ["main"]⟩,
           [⟨"main", "cmd/a", ["main"]⟩, ⟨"main", "cmd/b", ["main"]⟩]⟩ := by
  exact (doAnalysis_rta_main_packages _).2 _ _ (by decide)

/-- C5: `FindCachedImg` is empty whenever caching is disabled or
refresh is set — even if the cache file exists — and otherwise returns
`<cacheDir>/<focusNameOrAll>.<outputFormat>` exactly when that path
exists on disk. -/
theorem findCachedImg_spec (fs : FS) (a : Analysis) :
    ((a.opts.cacheDir = "" ∨ a.opts.refresh = true) → findCachedImg fs a = "")
    ∧ (a.opts.cacheDir ≠ "" → a.opts.refresh = false →
        findCachedImg fs a =
          if fs.existsPath (goJoin a.opts.cacheDir (focusOr a.opts ++ "." ++ a.outputFormat))
          then goJoin a.opts.cacheDir (focusOr a.opts ++ "." ++ a.outputFormat)
          else "") := by
  constructor
  · rintro (h | h) <;> simp [findCachedImg, h]
  · intro h1 h2
    simp [findCachedImg, h1, h2]

/-- C5 (witness): refresh set, matching cache file on disk — still
empty. -/
theorem findCachedImg_spec_witness :
    findCachedImg
        ⟨fun p => if p = "/tmp/c/all.svg" then some ⟨true, [1]⟩ else none, []⟩
        ⟨{ cacheDir := "/tmp/c", focus := "", group := ["pkg"], ignore := [],
           includeL := [], limit := [], nointer := false, refresh := true,
           nostd := false, algo := "" }, "svg"⟩ = "" := by
  exact (findCachedImg_spec
      ⟨fun p => if p = "/tmp/c/all.svg" then some ⟨true, [1]⟩ else none, []⟩
      ⟨{ cacheDir := "/tmp/c", focus := "", group := ["pkg"], ignore := [],
         includeL := [], limit := [], nointer := false, refresh := true,
         nostd := false, algo := "" }, "svg"⟩).1 (Or.inr rfl)

/-- C6: `CacheImg` is an error-free no-op when caching is disabled or
the image path is empty; otherwise it creates the cache directory and
byte-copies the source to `<cacheDir>/<focusNameOrAll>.<outputFormat>`,
erroring when the source is absent or not regular; with cache directory
`/tmp/c` and format `svg` the write path is `/tmp/c/all.svg` for an
empty focus and `/tmp/c/foo.svg` for focus `foo`. -/
theorem cacheImg_spec (a : Analysis) (img : String) (fs : FS) :
    ((a.opts.cacheDir = "" ∨ img = "") → cacheImg a img fs = .ok fs)
    ∧ (a.opts.cacheDir ≠ "" → img ≠ "" →
        (fs.files img = none →
          cacheImg a img fs = .error ("stat " ++ img ++ ": no such file or directory"))
        ∧ (∀ f : FSFile, fs.files img = some f → f.regular = false →
            cacheImg a img fs = .error (img ++ " is not a regular file"))
        ∧ (∀ f : FSFile, fs.files img = some f → f.regular = true →
            cacheImg a img fs = .ok
              { files := fun p => if p = cacheWritePath a then some ⟨true, f.content⟩
                         else fs.files p,
                dirs := cacheDirOf a :: fs.dirs }))
    ∧ (∀ o : RenderOpts, o.cacheDir = "/tmp/c" →
        (o.focus = "" → cacheWritePath ⟨o, "svg"⟩ = "/tmp/c/all.svg")
        ∧ (o.focus = "foo" → cacheWritePath ⟨o, "svg"⟩ = "/tmp/c/foo.svg")) := by
  refine ⟨?_, ?_, ?_⟩
  · rintro (h | h) <;> simp [cacheImg, h]
  · intro h1 h2
    refine ⟨?_, ?_, ?_⟩
    · intro hn
      simp [cacheImg, h1, h2, copyFile, mkdirAll, hn]
    · intro f hf hreg
      simp [cacheImg, h1, h2, copyFile, mkdirAll, hf, hreg]
    · intro f hf hreg
      simp [cacheImg, h1, h2, copyFile, mkdirAll, hf, hreg]
  · intro o h1
    constructor <;> intro h2 <;>
      simp [cacheWritePath, focusOr, goJoin, h1, h2]

/-- C6 (witness): a regular source file is copied to `/tmp/c/all.svg`
(the cache write path for an empty focus and format `svg`), creating
the cache directory. -/
theorem cacheImg_spec_witness :
    cacheImg
        ⟨{ cacheDir := "/tmp/c", focus := "", group := ["pkg"], ignore := [],
           includeL := [], limit := [], nointer := false, refresh := false,
           nostd := false, algo := "" }, "svg"⟩
        "/tmp/img.svg"
        ⟨fun p => if p = "/tmp/img.svg" then some ⟨true, [7, 7]⟩ else none, []⟩ =
      .ok
        { files := fun p =>
            if p = cacheWritePath
                ⟨{ cacheDir := "/tmp/c", focus := "", group := ["pkg"], ignore := [],
                   includeL := [], limit := [], nointer := false, refresh := false,
                   nostd := false, algo := "" }, "svg"⟩
            then some ⟨true, [7, 7]⟩
            else (if p = "/tmp/img.svg" then some ⟨true, [7, 7]⟩ else none),
          dirs := ["/tmp/c/"] } := by
  have h := ((cacheImg_spec
      ⟨{ cacheDir := "/tmp/c", focus := "", group := ["pkg"], ignore := [],
         includeL := [], limit := [], nointer := false, refresh := false,
         nostd := false, algo := "" }, "svg"⟩
      "/tmp/img.svg"
      ⟨fun p => if p = "/tmp/img.svg" then some ⟨true, [7, 7]⟩ else none, []⟩).2.1
      (by decide) (by decide)).2.2 ⟨true, [7, 7]⟩ (by decide) rfl
  rw [h]
  rfl

/-- C8 (code_bug): the `version` flag is registered only after
`flag.Parse()` has run (main.go:132 vs main.go:123), so `-version` on
the command line makes the parse fail (exit 2), and the version branch
is unreachable: no invocation ever prints the version string and exits
0 before analysis. -/
theorem version_flag_unreachable :
    runMainEntry ⟨["version"], []⟩ = .parseFailure
    ∧ ∀ cmd : CmdLine, runMainEntry cmd = .parseFailure
        ∨ runMainEntry cmd = .usageShown ∨ runMainEntry cmd = .analysisRun := by
  constructor
  · decide
  · intro cmd
    rw [runMainEntry]
    by_cases h : cmd.flagsGiven.any (fun n => ¬ flagsRegisteredAtParse.contains n)
    · rw [if_pos h]
      exact Or.inl rfl
    · rw [if_neg h]
      have hver : flagsRegisteredAtParse.contains "version" = false := by decide
      rw [hver]
      simp only [Bool.false_and, if_neg]
      by_cases hp : cmd.positionals.length ≠ 1
      · rw [if_pos hp]; exact Or.inr (Or.inl rfl)
      · rw [if_neg hp]; exact Or.inr (Or.inr rfl)

/-- C10: `NewAnalysis` stores its argument as the output image format,
and `main` passes the output-file flag value (empty in server mode)
rather than the format flag; server-mode cache paths therefore end in a
bare `.` with an empty extension. -/
theorem mainAnalysis_empty_extension (outFileFlag : String) (opts : RenderOpts)
    (fs : FS) :
    (mainAnalysis outFileFlag opts).outputFormat = outFileFlag
    ∧ (opts.cacheDir ≠ "" →
        cacheWritePath (mainAnalysis "" opts) =
          opts.cacheDir ++ "/" ++ focusOr opts ++ "."
        ∧ (opts.refresh = false →
            findCachedImg fs (mainAnalysis "" opts) =
              if fs.existsPath (opts.cacheDir ++ "/" ++ focusOr opts ++ ".")
              then opts.cacheDir ++ "/" ++ focusOr opts ++ "." else "")) := by
  refine ⟨rfl, ?_⟩
  intro h
  have hjoin : goJoin opts.cacheDir (focusOr opts ++ "." ++ "") =
      opts.cacheDir ++ "/" ++ focusOr opts ++ "." := by
    rw [String.append_empty, goJoin, if_neg h, ← String.append_assoc]
  constructor
  · show goJoin opts.cacheDir (focusOr opts) ++ "." ++ "" =
      opts.cacheDir ++ "/" ++ focusOr opts ++ "."
    rw [String.append_empty, goJoin, if_neg h]
  · intro href
    have h5 := (findCachedImg_spec fs (mainAnalysis "" opts)).2 h href
    rw [h5]
    show (if fs.existsPath (goJoin opts.cacheDir (focusOr opts ++ "." ++ "")) then
        goJoin opts.cacheDir (focusOr opts ++ "." ++ "") else "") = _
    rw [hjoin]

/-- C10 (witness): server mode (`-file` empty), cache directory `/c`,
focus `x`: the cache path is `/c/x.` with an empty extension. -/
theorem mainAnalysis_empty_extension_witness :
    cacheWritePath (mainAnalysis ""
        { cacheDir := "/c", focus := "x", group := ["pkg"], ignore := [],
          includeL := [], limit := [], nointer := false, refresh := false,
          nostd := false, algo := "" }) = "/c/x." := by
  have h := ((mainAnalysis_empty_extension ""
      { cacheDir := "/c", focus := "x", group := ["pkg"], ignore := [],
        includeL := [], limit := [], nointer := false, refresh := false,
        nostd := false, algo := "" }
      ⟨fun _ => none, []⟩).2 (by decide)).1
  rw [h]
  decide

/-- C7 (counterexample): an ambiguous focus target is a `Render` error,
which the handler maps to status 500 — not 400 as the claim states. -/
theorem handler_ambiguous_focus_500_cex :
    (handler (fun _ _ => .ok []) (fun _ => .ok "img")
        [⟨"util", "a/util", []⟩, ⟨"util", "b/util", []⟩]
        [⟨"util", "a/util", []⟩, ⟨"util", "b/util", []⟩]
        ⟨{ cacheDir := "", focus := "util", group := ["pkg"], ignore := [""],
           includeL := [""], limit := [""], nointer := false, refresh := false,
           nostd := false, algo := "" }, "svg"⟩
        ⟨fun _ => none, []⟩
        ⟨"/", fun _ => ""⟩).1 =
      .errorResp 500 "focus failed, found multiple packages with name: util" := by
  rfl

/-- C7 (amended): per-request errors are mapped to responses without
terminating the server: an invalid list parameter yields 400, a
`Render` failure (including focus-resolution errors, ambiguity among
them) yields 500, an image-conversion failure yields 500, and a
cache-write failure yields 400. -/
theorem handler_error_status_spec
    (po : Option GoPackage → RenderOpts → Except String (List Nat))
    (dti : List Nat → Except String String)
    (prog pkgs : List GoPackage) (a : Analysis) (fs : FS) (r : HRequest)
    (opts1 : RenderOpts)
    (hpath : r.path = "/")
    (hov : overrideByHTTP r a.opts = some opts1)
    (hcache : findCachedImg fs { a with opts := opts1 } = "") :
    (∀ opts2 e, processListArgs opts1 = some (opts2, some e) →
      handler po dti prog pkgs a fs r =
        (.errorResp 400 "invalid parameters", { a with opts := opts2 }, fs))
    ∧ (∀ opts2 e, processListArgs opts1 = some (opts2, none) →
        (render po prog pkgs opts2).1 = .error e →
        handler po dti prog pkgs a fs r =
          (.errorResp 500 e, { a with opts := opts2 }, fs))
    ∧ (∀ opts2 out e, processListArgs opts1 = some (opts2, none) →
        (render po prog pkgs opts2).1 = .ok out →
        r.formValue "format" ≠ "dot" →
        dti out = .error e →
        handler po dti prog pkgs a fs r =
          (.errorResp 500 e, { a with opts := opts2 }, fs))
    ∧ (∀ opts2 out img2 e, processListArgs opts1 = some (opts2, none) →
        (render po prog pkgs opts2).1 = .ok out →
        r.formValue "format" ≠ "dot" →
        dti out = .ok img2 →
        cacheImg { a with opts := opts2 } img2 fs = .error e →
        handler po dti prog pkgs a fs r =
          (.errorResp 400 ("cache img error: " ++ e), { a with opts := opts2 }, fs)) := by
  have hno : ¬(r.path ≠ "/" ∧ ¬ (goHasSuffix r.path ".svg")) := by
    simp [hpath]
  have hemp : ¬(("" : String) ≠ "") := fun hcon => hcon rfl
  refine ⟨?_, ?_, ?_, ?_⟩
  · intro opts2 e hpl
    rw [handler, if_neg hno, hov]
    dsimp only
    rw [hcache, if_neg hemp, hpl]
  · intro opts2 e hpl hrender
    rw [handler, if_neg hno, hov]
    dsimp only
    rw [hcache, if_neg hemp, hpl]
    dsimp only
    rw [hrender]
  · intro opts2 out e hpl hrender hfmt hdti
    rw [handler, if_neg hno, hov]
    dsimp only
    rw [hcache, if_neg hemp, hpl]
    dsimp only
    rw [hrender]
    dsimp only
    rw [if_neg hfmt, hdti]
  · intro opts2 out img2 e hpl hrender hfmt hdti hci
    rw [handler, if_neg hno, hov]
    dsimp only
    rw [hcache, if_neg hemp, hpl]
    dsimp only
    rw [hrender]
    dsimp only
    rw [if_neg hfmt, hdti]
    dsimp only
    rw [hci]

/-- C7 (witness): an invalid group token in the shared options makes
the handler answer 400 `invalid parameters`. -/
theorem handler_error_status_spec_witness :
    handler (fun _ _ => .ok []) (fun _ => .ok "img") [] []
        ⟨{ cacheDir := "", focus := "main", group := ["bad"], ignore := [""],
           includeL := [""], limit := [""], nointer := false, refresh := false,
           nostd := false, algo := "" }, "svg"⟩
        ⟨fun _ => none, []⟩ ⟨"/", fun _ => ""⟩ =
      (.errorResp 400 "invalid parameters",
       ⟨{ cacheDir := "", focus := "main", group := ["bad"], ignore := [""],
          includeL := [""], limit := [""], nointer := false, refresh := false,
          nostd := false, algo := "" }, "svg"⟩,
       ⟨fun _ => none, []⟩) := by
  have h := (handler_error_status_spec (fun _ _ => .ok []) (fun _ => .ok "img") [] []
      ⟨{ cacheDir := "", focus := "main", group := ["bad"], ignore := [""],
         includeL := [""], limit := [""], nointer := false, refresh := false,
         nostd := false, algo := "" }, "svg"⟩
      ⟨fun _ => none, []⟩ ⟨"/", fun _ => ""⟩
      { cacheDir := "", focus := "main", group := ["bad"], ignore := [""],
        includeL := [""], limit := [""], nointer := false, refresh := false,
        nostd := false, algo := "" }
      rfl (by decide) (by decide)).1
      { cacheDir := "", focus := "main", group := ["bad"], ignore := [""],
        includeL := [""], limit := [""], nointer := false, refresh := false,
        nostd := false, algo := "" }
      "invalid group option" (by decide)
  exact h

end GoCallvis
